import Mathlib

/-!
# Verification of ormar's model-metadata compilation and save-preparation core

Shallow embedding of the three source files under scrutiny:

* `src/ormar/fields/base.py` (class `BaseField`)
* `src/ormar/models/helpers/sqlalchemy.py` (column compilation / table assembly)
* `src/ormar/models/mixins/save_mixin.py` (class `SavePrepareMixin`)

Python runtime values that flow through the save-preparation pipeline are
modelled by the inductive type `Value`; Python `dict`s are insertion-ordered
association lists (`Payload`), with `dict.get`, item assignment (update in
place, preserving position), deletion and `pop` modelled faithfully.
Python in-place mutation of the caller's dict is modelled by returning,
alongside an optional raised error, the state of the dict at the moment the
exception propagates.

Ormar field classes (class-level attribute namespaces) are flattened into the
record `BaseField`; class-hierarchy tests such as
`issubclass(cls, ManyToManyField)` and `issubclass(cls, ForeignKeyField)`
become the boolean flags `is_many_to_many` and `is_relation`
(many-to-many implies relation). Callable defaults (default factories) are
outside the modelled value universe: no claim under scrutiny touches them.
-/

namespace Ormar

/-- A Python runtime value as seen by the save-preparation pipeline:
`None`, numbers, strings, booleans, lists, dicts (ordered key/value pairs)
and materialized ormar model instances (`vModel name attrs` carries the
model class name used by `get_name()` and the instance attributes read by
`getattr`). -/
inductive Value where
  | vNone : Value
  | vInt : Int → Value
  | vStr : String → Value
  | vBool : Bool → Value
  | vList : List Value → Value
  | vDict : List (String × Value) → Value
  | vModel : String → List (String × Value) → Value
  deriving Repr

/-- Decidable equality for `Value` (nested inductive, so written by hand). -/
def Value.deq : (a b : Value) → Decidable (a = b)
  | .vNone, .vNone => isTrue rfl
  | .vInt m, .vInt n =>
      match decEq m n with
      | isTrue h => isTrue (by rw [h])
      | isFalse h => isFalse (by intro hc; cases hc; exact h rfl)
  | .vStr s, .vStr t =>
      match decEq s t with
      | isTrue h => isTrue (by rw [h])
      | isFalse h => isFalse (by intro hc; cases hc; exact h rfl)
  | .vBool a, .vBool b =>
      match decEq a b with
      | isTrue h => isTrue (by rw [h])
      | isFalse h => isFalse (by intro hc; cases hc; exact h rfl)
  | .vList l, .vList m =>
      match listDeq l m with
      | isTrue h => isTrue (by rw [h])
      | isFalse h => isFalse (by intro hc; cases hc; exact h rfl)
  | .vDict l, .vDict m =>
      match pairsDeq l m with
      | isTrue h => isTrue (by rw [h])
      | isFalse h => isFalse (by intro hc; cases hc; exact h rfl)
  | .vModel n l, .vModel n' l' =>
      match decEq n n', pairsDeq l l' with
      | isTrue h1, isTrue h2 => isTrue (by rw [h1, h2])
      | isFalse h1, _ => isFalse (by intro hc; cases hc; exact h1 rfl)
      | _, isFalse h2 => isFalse (by intro hc; cases hc; exact h2 rfl)
  | .vNone, .vInt _ => isFalse (by intro h; cases h)
  | .vNone, .vStr _ => isFalse (by intro h; cases h)
  | .vNone, .vBool _ => isFalse (by intro h; cases h)
  | .vNone, .vList _ => isFalse (by intro h; cases h)
  | .vNone, .vDict _ => isFalse (by intro h; cases h)
  | .vNone, .vModel _ _ => isFalse (by intro h; cases h)
  | .vInt _, .vNone => isFalse (by intro h; cases h)
  | .vInt _, .vStr _ => isFalse (by intro h; cases h)
  | .vInt _, .vBool _ => isFalse (by intro h; cases h)
  | .vInt _, .vList _ => isFalse (by intro h; cases h)
  | .vInt _, .vDict _ => isFalse (by intro h; cases h)
  | .vInt _, .vModel _ _ => isFalse (by intro h; cases h)
  | .vStr _, .vNone => isFalse (by intro h; cases h)
  | .vStr _, .vInt _ => isFalse (by intro h; cases h)
  | .vStr _, .vBool _ => isFalse (by intro h; cases h)
  | .vStr _, .vList _ => isFalse (by intro h; cases h)
  | .vStr _, .vDict _ => isFalse (by intro h; cases h)
  | .vStr _, .vModel _ _ => isFalse (by intro h; cases h)
  | .vBool _, .vNone => isFalse (by intro h; cases h)
  | .vBool _, .vInt _ => isFalse (by intro h; cases h)
  | .vBool _, .vStr _ => isFalse (by intro h; cases h)
  | .vBool _, .vList _ => isFalse (by intro h; cases h)
  | .vBool _, .vDict _ => isFalse (by intro h; cases h)
  | .vBool _, .vModel _ _ => isFalse (by intro h; cases h)
  | .vList _, .vNone => isFalse (by intro h; cases h)
  | .vList _, .vInt _ => isFalse (by intro h; cases h)
  | .vList _, .vStr _ => isFalse (by intro h; cases h)
  | .vList _, .vBool _ => isFalse (by intro h; cases h)
  | .vList _, .vDict _ => isFalse (by intro h; cases h)
  | .vList _, .vModel _ _ => isFalse (by intro h; cases h)
  | .vDict _, .vNone => isFalse (by intro h; cases h)
  | .vDict _, .vInt _ => isFalse (by intro h; cases h)
  | .vDict _, .vStr _ => isFalse (by intro h; cases h)
  | .vDict _, .vBool _ => isFalse (by intro h; cases h)
  | .vDict _, .vList _ => isFalse (by intro h; cases h)
  | .vDict _, .vModel _ _ => isFalse (by intro h; cases h)
  | .vModel _ _, .vNone => isFalse (by intro h; cases h)
  | .vModel _ _, .vInt _ => isFalse (by intro h; cases h)
  | .vModel _ _, .vStr _ => isFalse (by intro h; cases h)
  | .vModel _ _, .vBool _ => isFalse (by intro h; cases h)
  | .vModel _ _, .vList _ => isFalse (by intro h; cases h)
  | .vModel _ _, .vDict _ => isFalse (by intro h; cases h)
where
  listDeq : (l m : List Value) → Decidable (l = m)
    | [], [] => isTrue rfl
    | [], _ :: _ => isFalse (by intro h; cases h)
    | _ :: _, [] => isFalse (by intro h; cases h)
    | a :: l, b :: m =>
        match Value.deq a b, listDeq l m with
        | isTrue h1, isTrue h2 => isTrue (by rw [h1, h2])
        | isFalse h1, _ => isFalse (by intro hc; cases hc; exact h1 rfl)
        | _, isFalse h2 => isFalse (by intro hc; cases hc; exact h2 rfl)
  pairsDeq : (l m : List (String × Value)) → Decidable (l = m)
    | [], [] => isTrue rfl
    | [], _ :: _ => isFalse (by intro h; cases h)
    | _ :: _, [] => isFalse (by intro h; cases h)
    | (k, a) :: l, (k', b) :: m =>
        match decEq k k', Value.deq a b, pairsDeq l m with
        | isTrue h0, isTrue h1, isTrue h2 => isTrue (by rw [h0, h1, h2])
        | isFalse h0, _, _ => isFalse (by intro hc; cases hc; exact h0 rfl)
        | _, isFalse h1, _ => isFalse (by intro hc; cases hc; exact h1 rfl)
        | _, _, isFalse h2 => isFalse (by intro hc; cases hc; exact h2 rfl)

instance : DecidableEq Value := Value.deq

/-- Python truthiness (`bool(v)`): `None`, `0`, `""`, `False` and empty
collections are falsy; model instances (plain objects) are always truthy. -/
def falsy : Value → Bool
  | .vNone => true
  | .vInt n => n == 0
  | .vStr s => s == ""
  | .vBool b => !b
  | .vList l => l.isEmpty
  | .vDict l => l.isEmpty
  | .vModel _ _ => false

/-- `v is None` test. -/
def Value.isNone : Value → Bool
  | .vNone => true
  | _ => false

/-- A Python dict, insertion-ordered: earlier pairs were inserted earlier. -/
abbrev Payload := List (String × Value)

/-- `d.get(k, None)` respectively `d[k]` lookup. -/
def dictLookup (d : Payload) (k : String) : Option Value :=
  match d with
  | [] => none
  | p :: rest => if p.1 == k then some p.2 else dictLookup rest k

/-- `d[k] = v`: updates the existing entry in place (keeping its position),
otherwise appends a new entry at the end, as Python dicts do. -/
def dictSet (d : Payload) (k : String) (v : Value) : Payload :=
  match d with
  | [] => [(k, v)]
  | p :: rest => if p.1 == k then (k, v) :: rest else p :: dictSet rest k v

/-- `del d[k]` / `d.pop(k, None)`: removes the entry with that key. -/
def dictRemove (d : Payload) (k : String) : Payload :=
  match d with
  | [] => []
  | p :: rest => if p.1 == k then dictRemove rest k else p :: dictRemove rest k

/-- `d.get(k)` on a nested mapping: `None` when the key is absent. -/
def mappingGet (m : List (String × Value)) (k : String) : Value :=
  match m with
  | [] => .vNone
  | p :: rest => if p.1 == k then p.2 else mappingGet rest k

/-- `src/ormar/fields/base.py`, class `BaseField`: the class-level attribute
namespace of one ormar field, flattened into a record.

* `alias` is the persisted column name override; the source keeps `None`/empty
  for "unset" and tests it by truthiness, so we keep `""` for unset.
* `is_many_to_many` models `issubclass(cls, ormar.fields.ManyToManyField)`;
  `is_relation` models `issubclass(cls, ForeignKeyField)` (every many-to-many
  field is a relation field).
* `to_pkname` models `cls.to.Meta.pkname` and `to_name` the identity of the
  target model `cls.to` (meaningful for relation fields only).
* `default`/`server_default` hold `vNone` when the attribute is Python `None`,
  exactly as the source stores them. -/
structure BaseField where
  name : String
  «alias» : String := ""
  column_type : String := "integer"
  primary_key : Bool := false
  autoincrement : Bool := false
  nullable : Bool := false
  index : Bool := false
  unique : Bool := false
  pydantic_only : Bool := false
  virtual : Bool := false
  is_many_to_many : Bool := false
  is_relation : Bool := false
  to_name : String := ""
  to_pkname : String := ""
  related_name : Option String := none
  default : Value := .vNone
  server_default : Value := .vNone
  deriving Repr, DecidableEq

instance : Inhabited BaseField := ⟨{ name := "" }⟩

namespace BaseField

/-- `BaseField.is_valid_uni_relation` (base.py lines 53-67):
`not issubclass(cls, ormar.fields.ManyToManyField) and not cls.virtual`. -/
def is_valid_uni_relation (f : BaseField) : Bool :=
  !f.is_many_to_many && !f.virtual

/-- `BaseField.get_alias` (base.py lines 69-78):
`cls.alias if cls.alias else cls.name` (truthiness test on the alias). -/
def get_alias (f : BaseField) : String :=
  if f.«alias» ≠ "" then f.«alias» else f.name

/-- `BaseField.has_default` (base.py lines 175-188):
`cls.default is not None or (cls.server_default is not None and use_server)`;
the source's default for `use_server` is `True`. -/
def has_default (f : BaseField) (use_server : Bool := true) : Bool :=
  !f.default.isNone || (!f.server_default.isNone && use_server)

/-- `BaseField.get_default` (base.py lines 152-173). Note the guard calls
`cls.has_default()` with its default `use_server=True`; a callable default
would be invoked here, but callables are outside the modelled value universe.
The implicit Python `None` on the fall-through is `vNone`. -/
def get_default (f : BaseField) (use_server : Bool := false) : Value :=
  if f.has_default then
    if !f.default.isNone then f.default
    else if use_server then f.server_default else .vNone
  else .vNone

/-- `BaseField.is_auto_primary_key` (base.py lines 190-202). -/
def is_auto_primary_key (f : BaseField) : Bool :=
  if f.primary_key then f.autoincrement else false

end BaseField

/-- The relevant parameters of a `sqlalchemy.Column` produced by
`BaseField.get_column`. -/
structure Column where
  name : String
  ctype : String
  primary_key : Bool
  nullable : Bool
  index : Bool
  unique : Bool
  default : Value
  server_default : Value
  deriving Repr, DecidableEq

/-- `BaseField.get_column` (base.py lines 221-243): the column is named
`cls.alias or name` (truthiness), and `nullable` is
`cls.nullable and not cls.primary_key`. -/
def BaseField.get_column (f : BaseField) (name : String) : Column :=
  { name := if f.«alias» ≠ "" then f.«alias» else name
    ctype := f.column_type
    primary_key := f.primary_key
    nullable := f.nullable && !f.primary_key
    index := f.index
    unique := f.unique
    default := f.default
    server_default := f.server_default }

/-- `ormar.exceptions.ModelDefinitionError`, the only error raised during
model-metadata compilation. -/
inductive DefErr where
  | modelDefinitionError : String → DefErr
  deriving Repr, DecidableEq

/-- An ordered mapping of field name to field descriptor
(`Meta.model_fields`). -/
abbrev ModelFields := List (String × BaseField)

/-- `model_fields[name]` lookup. -/
def fieldsLookup (fields : ModelFields) (k : String) : Option BaseField :=
  match fields with
  | [] => none
  | p :: rest => if p.1 == k then some p.2 else fieldsLookup rest k

/-- Modelled from the spec: the `Integer` field factory
(`ormar/fields/model_fields.py`, not under `src/`). The spec's column
compiler synthesizes "one field named `id`: integer, primary-key,
autoincrement" with `Integer(name="id", primary_key=True)`, so the factory
makes an integer-typed persisted field whose autoincrement follows the
primary-key flag. -/
def Integer (name : String) (primary_key : Bool) : BaseField :=
  { name := name
    column_type := "integer"
    primary_key := primary_key
    autoincrement := primary_key
    nullable := primary_key }

/-- `check_pk_column_validity` (sqlalchemy.py lines 79-101): rejects a second
primary key and a `pydantic_only` primary key, otherwise returns the field
name to record as `pkname`. -/
def check_pk_column_validity (field_name : String) (field : BaseField)
    (pkname : Option String) : Except DefErr String :=
  if pkname.isSome then
    .error (.modelDefinitionError "Only one primary key column is allowed.")
  else if field.pydantic_only then
    .error (.modelDefinitionError "Primary key column cannot be pydantic only")
  else .ok field_name

/-- Modelled from the spec: `validate_related_names_in_relations`
(`ormar/models/helpers/models.py`, not under `src/`). The spec: group the
relation fields by target entity; within each group at most one field may
have an unset related-name, and the set related-names must be pairwise
distinct; violation is a `DefinitionError`. -/
def relatedNamesOkFor (rels : ModelFields) (t : String) : Bool :=
  let grp := rels.filter (fun p => p.2.to_name == t)
  let unset := grp.filter (fun p => p.2.related_name.isNone)
  let names : List String := grp.filterMap (fun p => p.2.related_name)
  decide (unset.length ≤ 1) && decide names.Nodup

/-- Modelled from the spec (continued): the whole related-name check as one
boolean over all targets. -/
def relatedNamesOk (fields : ModelFields) : Bool :=
  let rels := fields.filter (fun p => p.2.is_relation)
  ((rels.map (fun p => p.2.to_name)).eraseDups).all (relatedNamesOkFor rels)

/-- Modelled from the spec (continued): `validate_related_names_in_relations`
raises `ModelDefinitionError` exactly when `relatedNamesOk` fails. -/
def validate_related_names_in_relations (fields : ModelFields) :
    Except DefErr Unit :=
  if relatedNamesOk fields then .ok ()
  else .error (.modelDefinitionError
    "Multiple fields leading to the same model need unique related names.")

/-- Does the field contribute a column (sqlalchemy.py lines 145-149)?
`not field.pydantic_only and not field.virtual and
not issubclass(field, ManyToManyField)`. -/
def contributesColumn (f : BaseField) : Bool :=
  !f.pydantic_only && !f.virtual && !f.is_many_to_many

/-- The `for field_name, field in model_fields.items()` loop of
`sqlalchemy_columns_from_model_fields` (sqlalchemy.py lines 142-150):
primary-key validity check first (may raise), then column collection in
declaration order. -/
def columnsLoop : ModelFields → Option String →
    Except DefErr (Option String × List Column)
  | [], pkname => .ok (pkname, [])
  | (field_name, field) :: rest, pkname =>
    match (if field.primary_key
           then (check_pk_column_validity field_name field pkname).map some
           else .ok pkname) with
    | .error e => .error e
    | .ok pkname' =>
      match columnsLoop rest pkname' with
      | .error e => .error e
      | .ok (pkFinal, cols) =>
        .ok (pkFinal,
          (if contributesColumn field
           then [field.get_column field.get_alias] else []) ++ cols)

/-- `sqlalchemy_columns_from_model_fields` (sqlalchemy.py lines 104-151).
Returns `(pkname, columns)` together with the list of non-fatal diagnostics
emitted (`logging.warning` when the empty field set gets the auto `id`
primary key). -/
def sqlalchemy_columns_from_model_fields (model_fields : ModelFields) :
    Except DefErr (Option String × List Column × List String) :=
  let (model_fields, warnings) :=
    if model_fields.length == 0 then
      ([("id", Integer "id" true)],
       ["Table had no fields so auto Integer primary key named id created."])
    else (model_fields, ([] : List String))
  match validate_related_names_in_relations model_fields with
  | .error e => .error e
  | .ok () =>
    match columnsLoop model_fields none with
    | .error e => .error e
    | .ok (pkname, columns) => .ok (pkname, columns, warnings)

/-- A `sqlalchemy.Table` as far as this core is concerned: name, columns and
entity-level constraints, registered against a shared metadata registry. -/
structure Table where
  name : String
  columns : List Column
  constraints : List String
  deriving Repr, DecidableEq

/-- A model's `Meta` class during/after metadata compilation. `none` models a
missing attribute (`hasattr` is `isSome`). -/
structure ModelMeta where
  tablename : Option String := none
  model_fields : ModelFields := []
  pkname : Option String := none
  columns : Option (List Column) := none
  constraints : List String := []
  table : Option Table := none
  deriving Repr, DecidableEq

/-- `populate_meta_tablename_columns_and_pk` (sqlalchemy.py lines 154-194):
derives the default tablename `name.lower() + "s"` when Meta has none,
reuses cached `columns`/`pkname` when Meta already has `columns`, otherwise
compiles them from the model fields, and rejects a missing primary key. -/
def populate_meta_tablename_columns_and_pk (name : String) (new_model : ModelMeta) :
    Except DefErr ModelMeta :=
  let tablename :=
    match new_model.tablename with
    | some t => t
    | none => name.toLower ++ "s"
  match (match new_model.columns with
         | some cols => Except.ok (new_model.pkname, cols)
         | none =>
           match sqlalchemy_columns_from_model_fields new_model.model_fields with
           | .error e => .error e
           | .ok (pk, cols, _) => .ok (pk, cols)) with
  | .error e => .error e
  | .ok (pkname, columns) =>
    match pkname with
    | none => .error (.modelDefinitionError "Table has to have a primary key.")
    | some pk =>
      .ok { new_model with
              tablename := some tablename
              columns := some columns
              pkname := some pk }

/-- `populate_meta_sqlalchemy_table_if_required` (sqlalchemy.py lines
197-213): if Meta has no `table` attribute yet, construct the table from
tablename, (deep copies of the) columns and constraints, registering it in
the shared metadata registry; otherwise do nothing. The registry is passed
and returned explicitly — `sqlalchemy.Table(...)` registers itself in
`meta.metadata` as a side effect. Deep copies of immutable column records
are the records themselves. -/
def populate_meta_sqlalchemy_table_if_required (meta : ModelMeta)
    (metadata : List Table) : ModelMeta × List Table :=
  match meta.table with
  | some _ => (meta, metadata)
  | none =>
    let t : Table :=
      { name := meta.tablename.getD ""
        columns := meta.columns.getD []
        constraints := meta.constraints }
    ({ meta with table := some t }, metadata ++ [t])

/-- A runtime error escaping the save-preparation pipeline:
`ormar.exceptions.ModelPersistenceError`, or a Python `AttributeError`
(calling `.get` on a truthy payload value that is not a mapping). -/
inductive PyError where
  | persistenceError : String → PyError
  | attributeError : String → PyError
  deriving Repr, DecidableEq

/-- The compiled metadata the save-preparation pipeline consumes read-only:
`cls.Meta.pkname` and `cls.Meta.model_fields`. Well-formed compiled metadata
has `pkname` bound in `model_fields` and distinct field names. -/
structure CompiledMeta where
  pkname : String
  model_fields : ModelFields
  deriving Repr, DecidableEq

/-- Well-formedness of compiled metadata: the primary-key name resolves to a
field and field names are distinct (`model_fields` is a Python dict). -/
def CompiledMeta.wf (meta : CompiledMeta) : Prop :=
  (fieldsLookup meta.model_fields meta.pkname).isSome ∧
    (meta.model_fields.map (fun p => p.1)).Nodup

instance : DecidablePred CompiledMeta.wf := fun meta => by
  unfold CompiledMeta.wf; infer_instance

/-- `SavePrepareMixin._remove_pk_from_kwargs` (save_mixin.py lines 35-52):
drop the primary-key entry when it is explicitly present with value `None`
(`new_kwargs.get(pkname, ormar.Undefined) is None`) and the pk field is
nullable or autoincrement. The `model_fields[pkname]` access assumes
well-formed compiled metadata. -/
def _remove_pk_from_kwargs (meta : CompiledMeta) (new_kwargs : Payload) : Payload :=
  let pk := (fieldsLookup meta.model_fields meta.pkname).getD default
  if decide (dictLookup new_kwargs meta.pkname = some .vNone) &&
      (pk.nullable || pk.autoincrement) then
    dictRemove new_kwargs meta.pkname
  else new_kwargs

/-- Modelled from the spec: `extract_related_names` (`RelationMixin`, not
under `src/`). The spec's substitution stage runs over "every relation field
that is a real owning foreign key (excludes many-to-many, excludes
virtual/reverse side)", in declaration order. -/
def extract_related_names (meta : CompiledMeta) : List String :=
  (meta.model_fields.filter
    (fun p => p.2.is_relation && p.2.is_valid_uni_relation)).map (fun p => p.1)

/-- The list comprehension `[target.get(target_pkname) for target in
field_value]` (save_mixin.py lines 80-82): each element must be a mapping,
anything else raises `AttributeError`. -/
def elementsGet (k : String) : List Value → Except PyError (List Value)
  | [] => .ok []
  | .vDict m :: rest => (elementsGet k rest).map (fun vs => mappingGet m k :: vs)
  | _ :: _ => .error (.attributeError "object has no attribute get")

/-- One iteration of the `substitute_models_with_pks` loop (save_mixin.py
lines 65-86) for relation field `f`:

* absent key or value `None` — skip (`if field_value is not None`);
* a materialized model instance — read its primary-key attribute
  (an ormar instance always carries its declared fields, so `getattr` is
  `mappingGet`); falsy primary key raises `ModelPersistenceError`, otherwise
  the value is replaced by the primary-key value;
* any other truthy value — a list is mapped element-wise through `.get`, a
  mapping is replaced by `.get(target_pkname)`, anything else has no `.get`;
* any other falsy value — the key is popped. -/
def substituteStep (meta : CompiledMeta) (d : Payload) (f : String) :
    Except PyError Payload :=
  match dictLookup d f with
  | none => .ok d
  | some field_value =>
    if field_value.isNone then .ok d
    else
      let target_field := (fieldsLookup meta.model_fields f).getD default
      let target_pkname := target_field.to_pkname
      match field_value with
      | .vModel mname attrs =>
        let pk_value := mappingGet attrs target_pkname
        if falsy pk_value then
          .error (.persistenceError
            ("You cannot save " ++ mname ++ " model without pk set!"))
        else .ok (dictSet d f pk_value)
      | v =>
        if falsy v then .ok (dictRemove d f)
        else
          match v with
          | .vList l => (elementsGet target_pkname l).map
              (fun vs => dictSet d f (.vList vs))
          | .vDict m => .ok (dictSet d f (mappingGet m target_pkname))
          | _ => .error (.attributeError "object has no attribute get")

/-- The `for field in cls.extract_related_names()` loop. A raised error
propagates together with the dict state visible to the caller at that
moment (the dict is mutated in place). -/
def substituteLoop (meta : CompiledMeta) :
    List String → Payload → Option PyError × Payload
  | [], d => (none, d)
  | f :: rest, d =>
    match substituteStep meta d f with
    | .error e => (some e, d)
    | .ok d' => substituteLoop meta rest d'

/-- `SavePrepareMixin.substitute_models_with_pks` (save_mixin.py lines
54-87). -/
def substitute_models_with_pks (meta : CompiledMeta) (model_dict : Payload) :
    Option PyError × Payload :=
  substituteLoop meta (extract_related_names meta) model_dict

/-- One iteration of the `populate_default_values` loop (save_mixin.py lines
101-110): insert the resolved default when the field is absent, is persisted
and has a non-server default; then drop the entry when the field declares a
server default and the current value is falsy (a missing key reads as `None`,
hence falsy). -/
def populateStep (d : Payload) (field_name : String) (field : BaseField) :
    Payload :=
  let d :=
    if (dictLookup d field_name).isNone && field.has_default false &&
        !field.pydantic_only then
      dictSet d field_name field.get_default
    else d
  if !field.server_default.isNone &&
      falsy ((dictLookup d field_name).getD .vNone) then
    dictRemove d field_name
  else d

/-- The `for field_name, field in cls.Meta.model_fields.items()` loop. -/
def populateLoop : ModelFields → Payload → Payload
  | [], d => d
  | (fname, f) :: rest, d => populateLoop rest (populateStep d fname f)

/-- `SavePrepareMixin.populate_default_values` (save_mixin.py lines
89-111). -/
def populate_default_values (meta : CompiledMeta) (new_kwargs : Payload) :
    Payload :=
  populateLoop meta.model_fields new_kwargs

/-- Modelled from the spec: `translate_columns_to_aliases` (`AliasMixin`,
not under `src/`). The spec: "rewrite every remaining key from its
in-memory field name to its persisted column alias (identity if no alias
override was set)"; the alias of a field is `get_alias` (base.py). -/
def translate_columns_to_aliases (meta : CompiledMeta) (d : Payload) : Payload :=
  d.map (fun p =>
    match fieldsLookup meta.model_fields p.1 with
    | some f => (f.get_alias, p.2)
    | none => p)

/-- `SavePrepareMixin.prepare_model_to_save` (save_mixin.py lines 14-33):
the four stages chained on the same (in-place mutated) dict. The second
component of the result is the state of the caller's dict after the call:
the final payload on success, the state at the raise on failure. -/
def prepare_model_to_save (meta : CompiledMeta) (new_kwargs : Payload) :
    Option PyError × Payload :=
  let d1 := _remove_pk_from_kwargs meta new_kwargs
  match substitute_models_with_pks meta d1 with
  | (some e, d2) => (some e, d2)
  | (none, d2) =>
    (none, translate_columns_to_aliases meta (populate_default_values meta d2))

/-! ## Helper lemmas about the dict model -/

theorem dictLookup_dictSet_self (k : String) (v : Value) :
    ∀ d : Payload, dictLookup (dictSet d k v) k = some v := by
  intro d
  induction d with
  | nil => simp [dictSet, dictLookup]
  | cons p rest ih =>
    by_cases hp : p.1 = k
    · simp [dictSet, dictLookup, hp]
    · simp [dictSet, dictLookup, hp, ih]

theorem dictLookup_dictSet_ne (k k' : String) (v : Value) (h : k ≠ k') :
    ∀ d : Payload, dictLookup (dictSet d k v) k' = dictLookup d k' := by
  intro d
  induction d with
  | nil => simp [dictSet, dictLookup, h]
  | cons p rest ih =>
    by_cases hp : p.1 = k
    · have hpk : p.1 ≠ k' := by rw [hp]; exact h
      simp [dictSet, dictLookup, hp, hpk, h]
    · by_cases hq : p.1 = k'
      · have h2 : k' ≠ k := Ne.symm h
        simp [dictSet, dictLookup, hp, hq, h2]
      · simp [dictSet, dictLookup, hp, hq, ih]

theorem dictLookup_dictRemove_self (k : String) :
    ∀ d : Payload, dictLookup (dictRemove d k) k = none := by
  intro d
  induction d with
  | nil => simp [dictRemove, dictLookup]
  | cons p rest ih =>
    by_cases hp : p.1 = k
    · simp [dictRemove, hp, ih]
    · simp [dictRemove, dictLookup, hp, ih]

theorem dictLookup_dictRemove_ne (k k' : String) (h : k ≠ k') :
    ∀ d : Payload, dictLookup (dictRemove d k) k' = dictLookup d k' := by
  intro d
  induction d with
  | nil => simp [dictRemove]
  | cons p rest ih =>
    by_cases hp : p.1 = k
    · have hpk : p.1 ≠ k' := by rw [hp]; exact h
      simp [dictRemove, dictLookup, hp, hpk, h, ih]
    · by_cases hq : p.1 = k'
      · have h2 : k' ≠ k := Ne.symm h
        simp [dictRemove, dictLookup, hp, hq, h2]
      · simp [dictRemove, dictLookup, hp, hq, ih]

/-! ## Helper lemmas about the substitution stage -/

theorem substituteStep_skip_none (meta : CompiledMeta) (d : Payload) (f : String)
    (hv : dictLookup d f = none) : substituteStep meta d f = .ok d := by
  unfold substituteStep
  rw [hv]

theorem substituteStep_skip_vNone (meta : CompiledMeta) (d : Payload) (f : String)
    (hv : dictLookup d f = some .vNone) : substituteStep meta d f = .ok d := by
  unfold substituteStep
  rw [hv]
  rfl

theorem substituteStep_model_falsy (meta : CompiledMeta) (d : Payload)
    (f : String) (tf : BaseField) (mname : String)
    (attrs : List (String × Value))
    (htf : (fieldsLookup meta.model_fields f).getD default = tf)
    (hv : dictLookup d f = some (.vModel mname attrs))
    (hpk : falsy (mappingGet attrs tf.to_pkname) = true) :
    substituteStep meta d f =
      .error (.persistenceError
        ("You cannot save " ++ mname ++ " model without pk set!")) := by
  unfold substituteStep
  rw [hv]
  simp only [Value.isNone, htf, hpk]
  rfl

theorem substituteStep_model_truthy (meta : CompiledMeta) (d : Payload)
    (f : String) (tf : BaseField) (mname : String)
    (attrs : List (String × Value))
    (htf : (fieldsLookup meta.model_fields f).getD default = tf)
    (hv : dictLookup d f = some (.vModel mname attrs))
    (hpk : falsy (mappingGet attrs tf.to_pkname) = false) :
    substituteStep meta d f = .ok (dictSet d f (mappingGet attrs tf.to_pkname)) := by
  unfold substituteStep
  rw [hv]
  simp only [Value.isNone, htf, hpk]
  rfl

theorem substituteStep_falsy_drop (meta : CompiledMeta) (d : Payload)
    (f : String) (v : Value)
    (hv : dictLookup d f = some v)
    (hnn : v ≠ .vNone)
    (hnm : ∀ n a, v ≠ .vModel n a)
    (hfal : falsy v = true) :
    substituteStep meta d f = .ok (dictRemove d f) := by
  unfold substituteStep
  rw [hv]
  cases v with
  | vNone => exact absurd rfl hnn
  | vModel n a => exact absurd rfl (hnm n a)
  | vInt n => simp [Value.isNone, hfal]
  | vStr s => simp_all [Value.isNone, falsy]
  | vBool b => simp_all [Value.isNone, falsy]
  | vList l => simp_all [Value.isNone, falsy]
  | vDict m => simp_all [Value.isNone, falsy]

theorem substituteStep_dict_truthy (meta : CompiledMeta) (d : Payload)
    (f : String) (tf : BaseField) (m : List (String × Value))
    (htf : (fieldsLookup meta.model_fields f).getD default = tf)
    (hv : dictLookup d f = some (.vDict m))
    (hne : m ≠ []) :
    substituteStep meta d f = .ok (dictSet d f (mappingGet m tf.to_pkname)) := by
  unfold substituteStep
  rw [hv]
  simp only [Value.isNone, htf]
  simp [falsy, hne]

theorem substituteStep_list_truthy (meta : CompiledMeta) (d : Payload)
    (f : String) (tf : BaseField) (l : List Value) (vs : List Value)
    (htf : (fieldsLookup meta.model_fields f).getD default = tf)
    (hv : dictLookup d f = some (.vList l))
    (hne : l ≠ [])
    (hel : elementsGet tf.to_pkname l = .ok vs) :
    substituteStep meta d f = .ok (dictSet d f (.vList vs)) := by
  unfold substituteStep
  rw [hv]
  simp only [Value.isNone, htf]
  simp [falsy, hne, hel, Except.map]

theorem substituteStep_ok_lookup_ne (meta : CompiledMeta) (d d' : Payload)
    (f g : String) (h : g ≠ f)
    (hstep : substituteStep meta d f = .ok d') :
    dictLookup d' g = dictLookup d g := by
  unfold substituteStep at hstep
  rcases hv : dictLookup d f with _ | v
  · rw [hv] at hstep
    cases hstep
    rfl
  · rw [hv] at hstep
    cases v with
    | vNone => cases hstep; rfl
    | vModel n a =>
      simp only [Value.isNone] at hstep
      by_cases hf : falsy (mappingGet a
          ((fieldsLookup meta.model_fields f).getD default).to_pkname) = true
      · simp [hf] at hstep
      · rw [Bool.not_eq_true] at hf
        simp only [hf] at hstep
        simp only [Bool.false_eq_true, if_false] at hstep
        cases hstep
        exact dictLookup_dictSet_ne f g _ (Ne.symm h) d
    | vInt n =>
      simp only [Value.isNone] at hstep
      by_cases hf : falsy (Value.vInt n) = true
      · simp only [hf, if_true] at hstep
        cases hstep
        exact dictLookup_dictRemove_ne f g (Ne.symm h) d
      · rw [Bool.not_eq_true] at hf
        simp only [hf, Bool.false_eq_true, if_false] at hstep
        cases hstep
    | vStr t =>
      simp only [Value.isNone] at hstep
      by_cases hf : falsy (Value.vStr t) = true
      · simp only [hf, if_true] at hstep
        cases hstep
        exact dictLookup_dictRemove_ne f g (Ne.symm h) d
      · rw [Bool.not_eq_true] at hf
        simp only [hf, Bool.false_eq_true, if_false] at hstep
        cases hstep
    | vBool b =>
      simp only [Value.isNone] at hstep
      by_cases hf : falsy (Value.vBool b) = true
      · simp only [hf, if_true] at hstep
        cases hstep
        exact dictLookup_dictRemove_ne f g (Ne.symm h) d
      · rw [Bool.not_eq_true] at hf
        simp only [hf, Bool.false_eq_true, if_false] at hstep
        cases hstep
    | vList l =>
      simp only [Value.isNone] at hstep
      by_cases hf : falsy (Value.vList l) = true
      · simp only [hf, if_true] at hstep
        cases hstep
        exact dictLookup_dictRemove_ne f g (Ne.symm h) d
      · rw [Bool.not_eq_true] at hf
        simp only [hf, Bool.false_eq_true, if_false] at hstep
        rcases hel : elementsGet
            ((fieldsLookup meta.model_fields f).getD default).to_pkname l with e | vs
        · rw [hel] at hstep
          simp [Except.map] at hstep
        · rw [hel] at hstep
          simp only [Except.map] at hstep
          cases hstep
          exact dictLookup_dictSet_ne f g _ (Ne.symm h) d
    | vDict m =>
      simp only [Value.isNone] at hstep
      by_cases hf : falsy (Value.vDict m) = true
      · simp only [hf, if_true] at hstep
        cases hstep
        exact dictLookup_dictRemove_ne f g (Ne.symm h) d
      · rw [Bool.not_eq_true] at hf
        simp only [hf, Bool.false_eq_true, if_false] at hstep
        cases hstep
        exact dictLookup_dictSet_ne f g _ (Ne.symm h) d

/-- Unfolding equation: a step that raises stops the loop with the current
dict. -/
theorem substituteLoop_cons_error (meta : CompiledMeta) (g : String)
    (rest : List String) (d : Payload) (e : PyError)
    (hstep : substituteStep meta d g = .error e) :
    substituteLoop meta (g :: rest) d = (some e, d) := by
  conv_lhs => unfold substituteLoop
  rw [hstep]

/-- Unfolding equation: a successful step hands its dict to the rest of the
loop. -/
theorem substituteLoop_cons_ok (meta : CompiledMeta) (g : String)
    (rest : List String) (d d1 : Payload)
    (hstep : substituteStep meta d g = .ok d1) :
    substituteLoop meta (g :: rest) d = substituteLoop meta rest d1 := by
  conv_lhs => unfold substituteLoop
  rw [hstep]

/-- A field not in the processed list is never touched by the loop, whether
the loop raises or not. -/
theorem substituteLoop_lookup_notMem (meta : CompiledMeta) (f : String) :
    ∀ (fields : List String) (d : Payload), f ∉ fields →
      dictLookup (substituteLoop meta fields d).2 f = dictLookup d f := by
  intro fields
  induction fields with
  | nil => intro d _; rfl
  | cons g rest ih =>
    intro d hf
    have hgf : g ≠ f := fun h => hf (h ▸ List.mem_cons_self g rest)
    have hfr : f ∉ rest := fun h => hf (List.mem_cons_of_mem g h)
    unfold substituteLoop
    rcases hstep : substituteStep meta d g with e | d1
    · rfl
    · rw [show dictLookup d f = dictLookup d1 f from
        (substituteStep_ok_lookup_ne meta d d1 g f (Ne.symm hgf) hstep).symm]
      exact ih d1 hfr

/-- The final value of field `f` after a successful substitution pass is
obtained by running `f`'s own step on an intermediate dict that holds, at
`f`, the same value the input dict held. -/
theorem substituteLoop_final_lookup (meta : CompiledMeta) (f : String) :
    ∀ (fields : List String) (d d2 : Payload), fields.Nodup → f ∈ fields →
      substituteLoop meta fields d = (none, d2) →
      ∃ dmid dnext, dictLookup dmid f = dictLookup d f ∧
        substituteStep meta dmid f = .ok dnext ∧
        dictLookup d2 f = dictLookup dnext f := by
  intro fields
  induction fields with
  | nil => intro d d2 _ hf; exact absurd hf (List.not_mem_nil f)
  | cons g rest ih =>
    intro d d2 hnd hf hloop
    rcases hstep : substituteStep meta d g with e | d1
    · rw [substituteLoop_cons_error meta g rest d e hstep] at hloop
      simp at hloop
    · rw [substituteLoop_cons_ok meta g rest d d1 hstep] at hloop
      have hloop2 := hloop
      rcases List.mem_cons.mp hf with hfg | hfr
      · subst hfg
        have hfr : f ∉ rest := (List.nodup_cons.mp hnd).1
        refine ⟨d, d1, rfl, hstep, ?_⟩
        have hkeep := substituteLoop_lookup_notMem meta f rest d1 hfr
        rw [hloop2] at hkeep
        exact hkeep
      · have hgf : g ≠ f := by
          intro h
          exact (List.nodup_cons.mp hnd).1 (h ▸ hfr)
        rcases ih d1 d2 (List.nodup_cons.mp hnd).2 hfr hloop2 with
          ⟨dmid, dnext, h1, h2, h3⟩
        exact ⟨dmid, dnext,
          h1.trans (substituteStep_ok_lookup_ne meta d d1 g f (Ne.symm hgf) hstep),
          h2, h3⟩

/-- A raised error comes from the step of some processed field, and the dict
state the loop publishes is exactly the state that step read. -/
theorem substituteLoop_error (meta : CompiledMeta) :
    ∀ (fields : List String) (d d2 : Payload) (e : PyError),
      substituteLoop meta fields d = (some e, d2) →
      ∃ f ∈ fields, substituteStep meta d2 f = .error e := by
  intro fields
  induction fields with
  | nil =>
    intro d d2 e h
    simp [substituteLoop] at h
  | cons g rest ih =>
    intro d d2 e hloop
    rcases hstep : substituteStep meta d g with e2 | d1
    · rw [substituteLoop_cons_error meta g rest d e2 hstep] at hloop
      injection hloop with h1 h2
      subst h2
      refine ⟨g, List.mem_cons_self g rest, ?_⟩
      rw [hstep]
      exact congrArg Except.error (Option.some.inj h1)
    · rw [substituteLoop_cons_ok meta g rest d d1 hstep] at hloop
      rcases ih d1 d2 e hloop with ⟨f, hf, hsf⟩
      exact ⟨f, List.mem_cons_of_mem g hf, hsf⟩

/-- The list comprehension over related targets raises only `AttributeError`
(when an element is not a mapping). -/
theorem elementsGet_error (k : String) :
    ∀ (l : List Value) (e : PyError), elementsGet k l = .error e →
      e = .attributeError "object has no attribute get" := by
  intro l
  induction l with
  | nil => intro e h; cases h
  | cons x rest ih =>
    intro e h
    cases x with
    | vDict m =>
      unfold elementsGet at h
      rcases hr : elementsGet k rest with e2 | vs
      · rw [hr] at h
        simp only [Except.map] at h
        cases h
        exact ih _ hr
      · rw [hr] at h
        simp [Except.map] at h
    | vNone => cases h; rfl
    | vInt n => cases h; rfl
    | vStr t => cases h; rfl
    | vBool b => cases h; rfl
    | vList l2 => cases h; rfl
    | vModel n a => cases h; rfl

/-- A `ModelPersistenceError` can only come from the materialized-instance
branch: the field's value is a model instance whose primary key is falsy. -/
theorem substituteStep_persistenceError (meta : CompiledMeta) (d : Payload)
    (f : String) (s : String)
    (hstep : substituteStep meta d f = .error (.persistenceError s)) :
    ∃ mname attrs, dictLookup d f = some (.vModel mname attrs) ∧
      falsy (mappingGet attrs
        ((fieldsLookup meta.model_fields f).getD default).to_pkname) = true ∧
      s = "You cannot save " ++ mname ++ " model without pk set!" := by
  unfold substituteStep at hstep
  rcases hv : dictLookup d f with _ | v
  · rw [hv] at hstep
    cases hstep
  · rw [hv] at hstep
    cases v with
    | vNone => cases hstep
    | vModel n a =>
      simp only [Value.isNone] at hstep
      by_cases hf : falsy (mappingGet a
          ((fieldsLookup meta.model_fields f).getD default).to_pkname) = true
      · simp only [hf, if_true] at hstep
        cases hstep
        exact ⟨n, a, rfl, hf, rfl⟩
      · rw [Bool.not_eq_true] at hf
        simp only [hf, Bool.false_eq_true, if_false] at hstep
        cases hstep
    | vInt n =>
      simp only [Value.isNone] at hstep
      by_cases hf : falsy (Value.vInt n) = true
      · simp only [hf, if_true] at hstep; cases hstep
      · rw [Bool.not_eq_true] at hf
        simp only [hf, Bool.false_eq_true, if_false] at hstep
        cases hstep
    | vStr t =>
      simp only [Value.isNone] at hstep
      by_cases hf : falsy (Value.vStr t) = true
      · simp only [hf, if_true] at hstep; cases hstep
      · rw [Bool.not_eq_true] at hf
        simp only [hf, Bool.false_eq_true, if_false] at hstep
        cases hstep
    | vBool b =>
      simp only [Value.isNone] at hstep
      by_cases hf : falsy (Value.vBool b) = true
      · simp only [hf, if_true] at hstep; cases hstep
      · rw [Bool.not_eq_true] at hf
        simp only [hf, Bool.false_eq_true, if_false] at hstep
        cases hstep
    | vList l =>
      simp only [Value.isNone] at hstep
      by_cases hf : falsy (Value.vList l) = true
      · simp only [hf, if_true] at hstep; cases hstep
      · rw [Bool.not_eq_true] at hf
        simp only [hf, Bool.false_eq_true, if_false] at hstep
        rcases hel : elementsGet
            ((fieldsLookup meta.model_fields f).getD default).to_pkname l with e | vs
        · rw [hel] at hstep
          simp only [Except.map] at hstep
          cases hstep
          cases elementsGet_error _ l _ hel
        · rw [hel] at hstep
          simp [Except.map] at hstep
    | vDict m =>
      simp only [Value.isNone] at hstep
      by_cases hf : falsy (Value.vDict m) = true
      · simp only [hf, if_true] at hstep; cases hstep
      · rw [Bool.not_eq_true] at hf
        simp only [hf, Bool.false_eq_true, if_false] at hstep
        cases hstep

/-- If every owning relation field in the payload is absent, `None`, or an
unsaved model instance, the substitution pass publishes the input dict
unchanged, whether or not it raises. -/
theorem substituteLoop_unchanged (meta : CompiledMeta) :
    ∀ (fields : List String) (d : Payload),
      (∀ f ∈ fields, dictLookup d f = none ∨ dictLookup d f = some .vNone ∨
        ∃ mname attrs, dictLookup d f = some (.vModel mname attrs) ∧
          falsy (mappingGet attrs
            ((fieldsLookup meta.model_fields f).getD default).to_pkname) = true) →
      (substituteLoop meta fields d).2 = d := by
  intro fields
  induction fields with
  | nil => intro d _; rfl
  | cons g rest ih =>
    intro d hall
    unfold substituteLoop
    rcases hall g (List.mem_cons_self g rest) with hg | hg | ⟨mname, attrs, hg, hfal⟩
    · rw [substituteStep_skip_none meta d g hg]
      exact ih d (fun f hf => hall f (List.mem_cons_of_mem g hf))
    · rw [substituteStep_skip_vNone meta d g hg]
      exact ih d (fun f hf => hall f (List.mem_cons_of_mem g hf))
    · rw [substituteStep_model_falsy meta d g _ mname attrs rfl hg hfal]

/-! ## Helper lemmas about the defaults stage -/

/-- A field with `default = None` and `server_default = None` makes its loop
iteration a no-op. -/
theorem populateStep_id (d : Payload) (fname : String) (field : BaseField)
    (hdef : field.default = .vNone) (hserv : field.server_default = .vNone) :
    populateStep d fname field = d := by
  simp [populateStep, BaseField.has_default, hdef, hserv, Value.isNone]

/-- A loop iteration for field `g` touches only key `g`. -/
theorem populateStep_lookup_ne (d : Payload) (g f : String)
    (field : BaseField) (h : g ≠ f) :
    dictLookup (populateStep d g field) f = dictLookup d f := by
  simp only [populateStep]
  split
  · split
    · exact (dictLookup_dictRemove_ne g f h _).trans
        (dictLookup_dictSet_ne g f _ h d)
    · exact dictLookup_dictSet_ne g f _ h d
  · split
    · exact dictLookup_dictRemove_ne g f h d
    · rfl

/-- A key that names no processed field is untouched by the defaults loop. -/
theorem populateLoop_lookup_notMem (f : String) :
    ∀ (fields : ModelFields) (d : Payload), (∀ q ∈ fields, q.1 ≠ f) →
      dictLookup (populateLoop fields d) f = dictLookup d f := by
  intro fields
  induction fields with
  | nil => intro d _; rfl
  | cons q rest ih =>
    intro d hall
    obtain ⟨g, fg⟩ := q
    have hg : g ≠ f := hall (g, fg) (List.mem_cons_self _ rest)
    unfold populateLoop
    exact (ih (populateStep d g fg)
      (fun q hq => hall q (List.mem_cons_of_mem _ hq))).trans
      (populateStep_lookup_ne d g f fg hg)

/-- The defaults stage leaves a field with `default = None` and
`server_default = None` untouched in the payload. -/
theorem populateLoop_default_none (f : String) (fld : BaseField)
    (hdef : fld.default = .vNone) (hserv : fld.server_default = .vNone) :
    ∀ (fields : ModelFields) (d : Payload),
      (fields.map Prod.fst).Nodup → (f, fld) ∈ fields →
      dictLookup (populateLoop fields d) f = dictLookup d f := by
  intro fields
  induction fields with
  | nil => intro d _ hmem; exact absurd hmem (List.not_mem_nil _)
  | cons q rest ih =>
    intro d hnd hmem
    obtain ⟨g, fg⟩ := q
    rcases List.mem_cons.mp hmem with hq | hq
    · obtain ⟨hgf, hfldf⟩ := Prod.mk.injEq .. ▸ hq
      subst hgf
      have hnotin : ∀ q ∈ rest, q.1 ≠ f := by
        intro q hqr hq1
        have : f ∈ rest.map Prod.fst := hq1 ▸ List.mem_map_of_mem Prod.fst hqr
        exact (List.nodup_cons.mp (by simpa using hnd)).1 this
      unfold populateLoop
      rw [populateStep_id d f fg (hfldf ▸ hdef) (hfldf ▸ hserv)]
      exact populateLoop_lookup_notMem f rest d hnotin
    · have hg : g ≠ f := by
        intro h
        subst h
        have : g ∈ rest.map Prod.fst := List.mem_map_of_mem Prod.fst hq
        exact (List.nodup_cons.mp (by simpa using hnd)).1 this
      unfold populateLoop
      exact (ih (populateStep d g fg)
        (by simpa using (List.nodup_cons.mp (by simpa using hnd)).2) hq).trans
        (populateStep_lookup_ne d g f fg hg)

/-! ## Helper lemmas about the column-compilation loop -/

/-- A successful pass collects, in declaration order, exactly the columns of
the fields that are persisted, not virtual and not many-to-many. -/
theorem columnsLoop_ok_columns :
    ∀ (fields : ModelFields) (p pk : Option String) (cols : List Column),
      columnsLoop fields p = .ok (pk, cols) →
      cols = fields.filterMap (fun q =>
        if contributesColumn q.2 then some (q.2.get_column q.2.get_alias)
        else none) := by
  intro fields
  induction fields with
  | nil =>
    intro p pk cols h
    have h2 : (Except.ok (p, ([] : List Column)) :
        Except DefErr (Option String × List Column)) = .ok (pk, cols) := h
    injection h2 with h3
    obtain ⟨h4, h5⟩ := Prod.mk.injEq .. ▸ h3
    simp [← h5]
  | cons q rest ih =>
    intro p pk cols h
    obtain ⟨n, fld⟩ := q
    unfold columnsLoop at h
    rcases hc : (if fld.primary_key
        then (check_pk_column_validity n fld p).map some
        else .ok p) with e | p2
    · rw [hc] at h
      exact absurd h (by simp)
    · rw [hc] at h
      have hm : (match columnsLoop rest p2 with
          | Except.error e => (Except.error e :
              Except DefErr (Option String × List Column))
          | Except.ok (pkFinal, cols2) =>
            Except.ok (pkFinal,
              (if contributesColumn fld then [fld.get_column fld.get_alias]
               else []) ++ cols2)) = Except.ok (pk, cols) := h
      rcases hr : columnsLoop rest p2 with e | pr
      · rw [hr] at hm
        exact absurd hm (by simp)
      · obtain ⟨pkF, cols2⟩ := pr
        rw [hr] at hm
        have h2 : (Except.ok (pkF,
            (if contributesColumn fld then [fld.get_column fld.get_alias]
             else []) ++ cols2) :
            Except DefErr (Option String × List Column)) = .ok (pk, cols) := hm
        injection h2 with h3
        obtain ⟨h4, h5⟩ := Prod.mk.injEq .. ▸ h3
        rw [← h5, ih p2 pkF cols2 hr]
        by_cases hcf : contributesColumn fld = true
        · simp [hcf, List.filterMap_cons]
        · simp [hcf, List.filterMap_cons]

/-- Unfolding equation: a failing primary-key check stops the pass. -/
theorem columnsLoop_cons_error (n : String) (fld : BaseField)
    (rest : ModelFields) (p : Option String) (e : DefErr)
    (hc : (if fld.primary_key
        then (check_pk_column_validity n fld p).map some
        else .ok p) = .error e) :
    columnsLoop ((n, fld) :: rest) p = .error e := by
  conv_lhs => unfold columnsLoop
  rw [hc]

/-- Unfolding equation: a successful primary-key check hands the updated
pkname to the rest of the pass and contributes the head's column. -/
theorem columnsLoop_cons_ok (n : String) (fld : BaseField)
    (rest : ModelFields) (p p2 : Option String)
    (hc : (if fld.primary_key
        then (check_pk_column_validity n fld p).map some
        else .ok p) = .ok p2) :
    columnsLoop ((n, fld) :: rest) p =
      match columnsLoop rest p2 with
      | .error e => .error e
      | .ok (pkF, cols) =>
        .ok (pkF, (if contributesColumn fld
            then [fld.get_column fld.get_alias] else []) ++ cols) := by
  conv_lhs => unfold columnsLoop
  rw [hc]

/-- With no primary-key-flagged field in sight the loop succeeds and keeps
the incoming pkname. -/
theorem columnsLoop_no_pk :
    ∀ (fields : ModelFields) (p : Option String),
      (∀ q ∈ fields, q.2.primary_key = false) →
      ∃ cols, columnsLoop fields p = .ok (p, cols) := by
  intro fields
  induction fields with
  | nil => intro p _; exact ⟨[], rfl⟩
  | cons q rest ih =>
    intro p hall
    obtain ⟨n, fld⟩ := q
    have hpk : fld.primary_key = false := hall (n, fld) (List.mem_cons_self _ rest)
    obtain ⟨cols, hr⟩ := ih p (fun q hq => hall q (List.mem_cons_of_mem _ hq))
    refine ⟨(if contributesColumn fld then [fld.get_column fld.get_alias]
      else []) ++ cols, ?_⟩
    rw [columnsLoop_cons_ok n fld rest p p (by rw [if_neg (by simp [hpk])]), hr]

/-- Exactly one primary-key-flagged field, and it is persisted: the loop
succeeds with that field's name. -/
theorem columnsLoop_single_pk :
    ∀ (fields : ModelFields) (n : String) (fld : BaseField),
      fields.filter (fun q => q.2.primary_key) = [(n, fld)] →
      fld.pydantic_only = false →
      ∃ cols, columnsLoop fields none = .ok (some n, cols) := by
  intro fields
  induction fields with
  | nil => intro n fld h; cases h
  | cons q rest ih =>
    intro n fld hfil hpyd
    obtain ⟨m, g⟩ := q
    by_cases hpk : g.primary_key = true
    · rw [List.filter_cons_of_pos (by simpa using hpk)] at hfil
      have hhead : ((m, g) : String × BaseField) = (n, fld) :=
        (List.cons.injEq .. ▸ hfil).1
      have hrest : rest.filter (fun q => q.2.primary_key) = [] :=
        (List.cons.injEq .. ▸ hfil).2
      obtain ⟨hm, hg⟩ := Prod.mk.injEq .. ▸ hhead
      subst hm
      subst hg
      have hnorest : ∀ q ∈ rest, q.2.primary_key = false := by
        intro q hq
        by_contra hc
        rw [Bool.not_eq_false] at hc
        have hmem : q ∈ rest.filter (fun q => q.2.primary_key) :=
          List.mem_filter.mpr ⟨hq, hc⟩
        rw [hrest] at hmem
        exact absurd hmem (List.not_mem_nil q)
      obtain ⟨cols, hr⟩ := columnsLoop_no_pk rest (some m) hnorest
      have hcheck : (if g.primary_key
          then (check_pk_column_validity m g none).map some
          else .ok none) = .ok (some m) := by
        rw [if_pos hpk]
        unfold check_pk_column_validity
        simp [hpyd, Except.map]
      refine ⟨(if contributesColumn g then [g.get_column g.get_alias]
        else []) ++ cols, ?_⟩
      rw [columnsLoop_cons_ok m g rest none (some m) hcheck, hr]
    · rw [List.filter_cons_of_neg (by simpa using hpk)] at hfil
      obtain ⟨cols, hr⟩ := ih n fld hfil hpyd
      rw [Bool.not_eq_true] at hpk
      refine ⟨(if contributesColumn g then [g.get_column g.get_alias]
        else []) ++ cols, ?_⟩
      rw [columnsLoop_cons_ok m g rest none none
        (by rw [if_neg (by simp [hpk])]), hr]

/-- Exactly one primary-key-flagged field, but it is `pydantic_only`: the
loop raises. -/
theorem columnsLoop_pydantic_pk :
    ∀ (fields : ModelFields) (n : String) (fld : BaseField),
      fields.filter (fun q => q.2.primary_key) = [(n, fld)] →
      fld.pydantic_only = true →
      ∃ e, columnsLoop fields none = .error e := by
  intro fields
  induction fields with
  | nil => intro n fld h; cases h
  | cons q rest ih =>
    intro n fld hfil hpyd
    obtain ⟨m, g⟩ := q
    by_cases hpk : g.primary_key = true
    · rw [List.filter_cons_of_pos (by simpa using hpk)] at hfil
      have hhead : ((m, g) : String × BaseField) = (n, fld) :=
        (List.cons.injEq .. ▸ hfil).1
      obtain ⟨hm, hg⟩ := Prod.mk.injEq .. ▸ hhead
      subst hm
      subst hg
      have hcheck : (if g.primary_key
          then (check_pk_column_validity m g none).map some
          else .ok none) = .error
            (.modelDefinitionError "Primary key column cannot be pydantic only") := by
        rw [if_pos hpk]
        unfold check_pk_column_validity
        simp [hpyd, Except.map]
      exact ⟨_, columnsLoop_cons_error m g rest none _ hcheck⟩
    · rw [List.filter_cons_of_neg (by simpa using hpk)] at hfil
      obtain ⟨e, hr⟩ := ih n fld hfil hpyd
      rw [Bool.not_eq_true] at hpk
      refine ⟨e, ?_⟩
      rw [columnsLoop_cons_ok m g rest none none
        (by rw [if_neg (by simp [hpk])]), hr]

/-- A primary key already chosen plus at least one more flagged field, or at
least two flagged fields: the loop raises. -/
theorem columnsLoop_multi_pk :
    ∀ (fields : ModelFields) (p : Option String),
      ((p.isSome = true ∧
          1 ≤ (fields.filter (fun q => q.2.primary_key)).length) ∨
        2 ≤ (fields.filter (fun q => q.2.primary_key)).length) →
      ∃ e, columnsLoop fields p = .error e := by
  intro fields
  induction fields with
  | nil =>
    intro p h
    rcases h with ⟨_, h1⟩ | h2
    · simp at h1
    · simp at h2
  | cons q rest ih =>
    intro p h
    obtain ⟨m, g⟩ := q
    by_cases hpk : g.primary_key = true
    · rcases hp : p with _ | pname
      · subst hp
        rcases h with ⟨hsome, _⟩ | h2
        · cases hsome
        · rw [List.filter_cons_of_pos (by simpa using hpk)] at h2
          simp only [List.length_cons] at h2
          by_cases hpyd : g.pydantic_only = true
          · have hcheck : (if g.primary_key
                then (check_pk_column_validity m g none).map some
                else .ok none) = .error (.modelDefinitionError
                  "Primary key column cannot be pydantic only") := by
              rw [if_pos hpk]
              unfold check_pk_column_validity
              simp [hpyd, Except.map]
            exact ⟨_, columnsLoop_cons_error m g rest none _ hcheck⟩
          · rw [Bool.not_eq_true] at hpyd
            have hcheck : (if g.primary_key
                then (check_pk_column_validity m g none).map some
                else .ok none) = .ok (some m) := by
              rw [if_pos hpk]
              unfold check_pk_column_validity
              simp [hpyd, Except.map]
            obtain ⟨e, hr⟩ := ih (some m) (Or.inl ⟨rfl, by omega⟩)
            refine ⟨e, ?_⟩
            rw [columnsLoop_cons_ok m g rest none (some m) hcheck, hr]
      · have hcheck : (if g.primary_key
            then (check_pk_column_validity m g (some pname)).map some
            else .ok (some pname)) = .error (.modelDefinitionError
              "Only one primary key column is allowed.") := by
          rw [if_pos hpk]
          unfold check_pk_column_validity
          simp [Except.map]
        exact ⟨_, columnsLoop_cons_error m g rest (some pname) _ hcheck⟩
    · rw [Bool.not_eq_true] at hpk
      have hfil : ((m, g) :: rest).filter (fun q => q.2.primary_key) =
          rest.filter (fun q => q.2.primary_key) :=
        List.filter_cons_of_neg (by simp [hpk])
      rw [hfil] at h
      obtain ⟨e, hr⟩ := ih p h
      refine ⟨e, ?_⟩
      rw [columnsLoop_cons_ok m g rest p p (by rw [if_neg (by simp [hpk])]), hr]

/-! ## Helper lemmas about nested mappings -/

/-- A mapping lacking the key yields `None` from `.get`. -/
theorem mappingGet_notMem (k : String) :
    ∀ (m : List (String × Value)), (∀ q ∈ m, q.1 ≠ k) →
      mappingGet m k = .vNone := by
  intro m
  induction m with
  | nil => intro _; rfl
  | cons q rest ih =>
    intro hall
    have hq : q.1 ≠ k := hall q (List.mem_cons_self _ rest)
    unfold mappingGet
    rw [if_neg (by simpa using hq)]
    exact ih (fun q hqr => hall q (List.mem_cons_of_mem _ hqr))

/-- A list of mappings each yielding `None` produces a list of `None`s. -/
theorem elementsGet_all_vNone (k : String) :
    ∀ (l : List Value),
      (∀ x ∈ l, ∃ m, x = Value.vDict m ∧ mappingGet m k = .vNone) →
      elementsGet k l = .ok (l.map (fun _ => Value.vNone)) := by
  intro l
  induction l with
  | nil => intro _; rfl
  | cons x rest ih =>
    intro hall
    obtain ⟨m, hx, hget⟩ := hall x (List.mem_cons_self _ rest)
    subst hx
    unfold elementsGet
    rw [ih (fun y hy => hall y (List.mem_cons_of_mem _ hy))]
    simp [Except.map, hget]

/-! ## Concrete fixtures used by the claim theorems -/

/-- A plain persisted scalar field: no flags set. -/
def plainField : BaseField := { name := "score" }

/-- A pydantic-only field: present on the model, never persisted. -/
def pydField : BaseField := { name := "note", pydantic_only := true }

/-- An owning foreign-key relation field `owner` pointing at a model whose
primary key is named `id`. -/
def ownerRelField : BaseField :=
  { name := "owner", nullable := true, is_relation := true,
    to_name := "user", to_pkname := "id" }

/-- Compiled metadata of a model with an autoincrement integer `id` primary
key and one owning relation field `owner`. -/
def saveMeta : CompiledMeta :=
  { pkname := "id"
    model_fields := [("id", Integer "id" true), ("owner", ownerRelField)] }

/-- Compiled metadata with a primary key and a plain scalar field, used to
exercise the defaults stage. -/
def saveMetaWithPlain : CompiledMeta :=
  { pkname := "id"
    model_fields := [("id", Integer "id" true), ("score", plainField)] }

/-- A materialized related instance whose primary key is unset. -/
def unsavedOwner : Value := .vModel "user" [("id", .vNone)]

/-- A Meta whose table has already been assembled. -/
def assembledMeta : ModelMeta :=
  { tablename := some "users"
    columns := some []
    table := some { name := "users", columns := [], constraints := [] } }

/-! ## Claim theorems -/

/-- C6 counterexample: `is_valid_uni_relation` does not check relation-ness
at all — a plain non-relation field (not many-to-many, not virtual) also
returns `true`, contradicting the claim that it returns false for every
non-relation field. -/
theorem C6_counterexample :
    plainField.is_valid_uni_relation = true ∧ plainField.is_relation = false :=
  ⟨rfl, rfl⟩

/-- C6 (amended): `is_valid_uni_relation` returns true iff the field is not
many-to-many and not the virtual (reverse) side; it does not itself verify
that the field is a relation, so non-relation fields also return true and
callers must apply it to relation fields only. -/
theorem C6_uni_relation_flags :
    ∀ f : BaseField,
      f.is_valid_uni_relation = true ↔
        (f.is_many_to_many = false ∧ f.virtual = false) := by
  intro f
  unfold BaseField.is_valid_uni_relation
  cases hm : f.is_many_to_many <;> cases hv : f.virtual <;> simp

/-- C6 witness: the flag characterization applied to the concrete plain
field. -/
theorem C6_witness : plainField.is_valid_uni_relation = true :=
  (C6_uni_relation_flags plainField).mpr ⟨rfl, rfl⟩

/-- C7: compiling an empty field-descriptor set synthesizes an `id` field
that is integer-typed, primary-key and autoincrement, emits one non-fatal
diagnostic, and succeeds with `id` as the primary-key name (and the `id`
column as the single column). -/
theorem C7_empty_fields_synthesize_id :
    sqlalchemy_columns_from_model_fields [] =
      .ok (some "id", [(Integer "id" true).get_column ((Integer "id" true).get_alias)],
        ["Table had no fields so auto Integer primary key named id created."]) ∧
    (Integer "id" true).name = "id" ∧
    (Integer "id" true).column_type = "integer" ∧
    (Integer "id" true).primary_key = true ∧
    (Integer "id" true).autoincrement = true :=
  ⟨rfl, rfl, rfl, rfl, rfl⟩

/-- C8: table assembly is idempotent — on a Meta that already carries an
assembled table it returns the Meta unchanged (same table object) and does
not register anything new in the shared metadata registry. -/
theorem C8_table_assembly_idempotent :
    ∀ (meta : ModelMeta) (metadata : List Table) (t : Table),
      meta.table = some t →
      populate_meta_sqlalchemy_table_if_required meta metadata = (meta, metadata) := by
  intro meta metadata t ht
  unfold populate_meta_sqlalchemy_table_if_required
  rw [ht]

/-- C8 witness: idempotence exercised on a concrete assembled Meta. -/
theorem C8_witness :
    populate_meta_sqlalchemy_table_if_required assembledMeta [] =
      (assembledMeta, []) :=
  C8_table_assembly_idempotent assembledMeta []
    { name := "users", columns := [], constraints := [] } rfl

/-- C4: whenever column compilation succeeds, the column list consists of
exactly the columns of the fields that are not pydantic-only, not virtual
and not many-to-many — taken over the synthesized `id` field when the input
set is empty — in declaration order. -/
theorem C4_columns_iff_persisted :
    ∀ (model_fields : ModelFields) (pk : Option String) (cols : List Column)
      (w : List String),
      sqlalchemy_columns_from_model_fields model_fields = .ok (pk, cols, w) →
      cols = (if model_fields.isEmpty then [("id", Integer "id" true)]
          else model_fields).filterMap
        (fun q => if contributesColumn q.2
          then some (q.2.get_column q.2.get_alias) else none) := by
  intro fields pk cols w h
  cases fields with
  | nil =>
    have hcomp : sqlalchemy_columns_from_model_fields ([] : ModelFields) =
        .ok (some "id",
          [(Integer "id" true).get_column ((Integer "id" true).get_alias)],
          ["Table had no fields so auto Integer primary key named id created."]) := rfl
    rw [hcomp] at h
    injection h with h3
    obtain ⟨h4, h5⟩ := Prod.mk.injEq .. ▸ h3
    obtain ⟨h6, h7⟩ := Prod.mk.injEq .. ▸ h5
    rw [← h6]
    rfl
  | cons q rest =>
    have h2 : (match validate_related_names_in_relations (q :: rest) with
        | Except.error e =>
            (Except.error e : Except DefErr (Option String × List Column × List String))
        | Except.ok () =>
          match columnsLoop (q :: rest) none with
          | Except.error e => Except.error e
          | Except.ok (pkname, columns) =>
            Except.ok (pkname, columns, ([] : List String))) = .ok (pk, cols, w) := h
    rcases hv : validate_related_names_in_relations (q :: rest) with e | u
    · rw [hv] at h2
      exact absurd h2 (by simp)
    · cases u
      rw [hv] at h2
      have h2b : (match columnsLoop (q :: rest) none with
          | Except.error e =>
              (Except.error e : Except DefErr (Option String × List Column × List String))
          | Except.ok (pkname, columns) =>
            Except.ok (pkname, columns, ([] : List String))) = .ok (pk, cols, w) := h2
      rcases hcl : columnsLoop (q :: rest) none with e | pr
      · rw [hcl] at h2b
        exact absurd h2b (by simp)
      · obtain ⟨pk2, cols2⟩ := pr
        rw [hcl] at h2b
        have h2c : (Except.ok (pk2, cols2, ([] : List String)) :
            Except DefErr (Option String × List Column × List String)) =
            .ok (pk, cols, w) := h2b
        injection h2c with h3
        obtain ⟨h4, h5⟩ := Prod.mk.injEq .. ▸ h3
        obtain ⟨h6, h7⟩ := Prod.mk.injEq .. ▸ h5
        rw [← h6, columnsLoop_ok_columns (q :: rest) none pk2 cols2 hcl]
        rfl

/-- C4 witness: a concrete set with a persisted primary key and a
pydantic-only field; the pydantic-only field contributes no column. -/
theorem C4_witness :
    [(Integer "id" true).get_column ((Integer "id" true).get_alias)] =
      (if ([("id", Integer "id" true), ("note", pydField)] : ModelFields).isEmpty
        then [("id", Integer "id" true)]
        else [("id", Integer "id" true), ("note", pydField)]).filterMap
        (fun q => if contributesColumn q.2
          then some (q.2.get_column q.2.get_alias) else none) :=
  C4_columns_iff_persisted [("id", Integer "id" true), ("note", pydField)]
    (some "id") [(Integer "id" true).get_column ((Integer "id" true).get_alias)]
    [] rfl

/-- C9: a field whose static default is `None` and whose server default is
`None` has no default (`has_default` is false for both flag values),
resolves its default to `None`, and the save-preparation defaults stage
leaves its payload entry exactly as it was — a default of `None` is
indistinguishable from no default. -/
theorem C9_none_default_is_no_default :
    ∀ (f : BaseField), f.default = .vNone → f.server_default = .vNone →
      (∀ use_server : Bool, f.has_default use_server = false) ∧
      (∀ use_server : Bool, f.get_default use_server = .vNone) ∧
      (∀ (meta : CompiledMeta) (d : Payload) (fname : String),
        (meta.model_fields.map Prod.fst).Nodup →
        (fname, f) ∈ meta.model_fields →
        dictLookup (populate_default_values meta d) fname = dictLookup d fname) := by
  intro f hdef hserv
  refine ⟨?_, ?_, ?_⟩
  · intro u
    simp [BaseField.has_default, hdef, hserv, Value.isNone]
  · intro u
    simp [BaseField.get_default, BaseField.has_default, hdef, hserv, Value.isNone]
  · intro meta d fname hnd hmem
    exact populateLoop_default_none fname f hdef hserv meta.model_fields d hnd hmem

/-- C9 witness: a concrete field with neither default; the defaults stage
does not insert a value for it into an empty payload. -/
theorem C9_witness :
    plainField.has_default false = false ∧
    dictLookup (populate_default_values saveMetaWithPlain []) "score" =
      dictLookup ([] : Payload) "score" :=
  ⟨(C9_none_default_is_no_default plainField rfl rfl).1 false,
   (C9_none_default_is_no_default plainField rfl rfl).2.2 saveMetaWithPlain []
     "score" (by decide) (by decide)⟩

/-- C10: a non-empty nested mapping (or list of mappings) lacking the target
primary-key key is silently replaced by `None` (or a list of `None`s) — the
step succeeds, no error is raised, and after a successful substitution pass
the field's payload value is `None`. -/
theorem C10_nested_mapping_missing_pk :
    (∀ (meta : CompiledMeta) (d : Payload) (f : String) (tf : BaseField)
        (m : List (String × Value)),
      (fieldsLookup meta.model_fields f).getD default = tf →
      dictLookup d f = some (.vDict m) → m ≠ [] →
      (∀ q ∈ m, q.1 ≠ tf.to_pkname) →
      substituteStep meta d f = .ok (dictSet d f .vNone)) ∧
    (∀ (meta : CompiledMeta) (d : Payload) (f : String) (tf : BaseField)
        (l : List Value),
      (fieldsLookup meta.model_fields f).getD default = tf →
      dictLookup d f = some (.vList l) → l ≠ [] →
      (∀ x ∈ l, ∃ m, x = Value.vDict m ∧ ∀ q ∈ m, q.1 ≠ tf.to_pkname) →
      substituteStep meta d f =
        .ok (dictSet d f (.vList (l.map (fun _ => Value.vNone))))) ∧
    (∀ (meta : CompiledMeta) (d d2 : Payload) (f : String) (tf : BaseField)
        (m : List (String × Value)),
      (extract_related_names meta).Nodup → f ∈ extract_related_names meta →
      (fieldsLookup meta.model_fields f).getD default = tf →
      dictLookup d f = some (.vDict m) → m ≠ [] →
      (∀ q ∈ m, q.1 ≠ tf.to_pkname) →
      substitute_models_with_pks meta d = (none, d2) →
      dictLookup d2 f = some .vNone) := by
  refine ⟨?_, ?_, ?_⟩
  · intro meta d f tf m htf hv hne hmiss
    rw [substituteStep_dict_truthy meta d f tf m htf hv hne,
      mappingGet_notMem tf.to_pkname m hmiss]
  · intro meta d f tf l htf hv hne hall
    exact substituteStep_list_truthy meta d f tf l (l.map (fun _ => Value.vNone))
      htf hv hne
      (elementsGet_all_vNone tf.to_pkname l (fun x hx => by
        obtain ⟨m, hxm, hmiss⟩ := hall x hx
        exact ⟨m, hxm, mappingGet_notMem tf.to_pkname m hmiss⟩))
  · intro meta d d2 f tf m hnd hf htf hv hne hmiss hsub
    have hloop : substituteLoop meta (extract_related_names meta) d = (none, d2) := hsub
    obtain ⟨dmid, dnext, h1, h2, h3⟩ :=
      substituteLoop_final_lookup meta f (extract_related_names meta) d d2 hnd hf hloop
    have hstep : substituteStep meta dmid f = .ok (dictSet dmid f .vNone) := by
      rw [substituteStep_dict_truthy meta dmid f tf m htf (h1.trans hv) hne,
        mappingGet_notMem tf.to_pkname m hmiss]
    have hdnext : dnext = dictSet dmid f .vNone := by
      rw [hstep] at h2
      injection h2 with h4
      exact h4.symm
    rw [h3, hdnext]
    exact dictLookup_dictSet_self f .vNone dmid

/-- C10 witness: a payload holding a nested mapping without the target
primary-key key ends the substitution pass as `None`, with no error. -/
theorem C10_witness :
    substituteStep saveMeta [("owner", Value.vDict [("name", Value.vStr "bob")])]
        "owner" =
      .ok (dictSet [("owner", Value.vDict [("name", Value.vStr "bob")])] "owner"
        .vNone) :=
  C10_nested_mapping_missing_pk.1 saveMeta
    [("owner", Value.vDict [("name", Value.vStr "bob")])] "owner" ownerRelField
    [("name", Value.vStr "bob")] rfl rfl (by decide) (by decide)

/-- C5 counterexample: a payload value of `None` for an owning relation
field is falsy and not a materialized instance, yet the substitution stage
leaves the key in place with value `None` — the key is not removed as the
claim states. -/
theorem C5_counterexample :
    ("owner" ∈ extract_related_names saveMeta) ∧
    falsy Value.vNone = true ∧
    substitute_models_with_pks saveMeta [("owner", Value.vNone)] =
      (none, [("owner", Value.vNone)]) ∧
    dictLookup [("owner", Value.vNone)] "owner" = some Value.vNone := by
  refine ⟨by decide, rfl, rfl, rfl⟩

/-- C5 (amended): an owning relation field whose payload value is falsy,
not `None` and not a materialized instance (for example an empty list or an
empty mapping) has its key removed by the substitution stage; a value of
`None`, however, is skipped entirely and the key is retained — the source
conflates `None` with an absent key. -/
theorem C5_falsy_drop :
    (∀ (meta : CompiledMeta) (d d2 : Payload) (f : String) (v : Value),
      (extract_related_names meta).Nodup → f ∈ extract_related_names meta →
      dictLookup d f = some v → v ≠ .vNone → (∀ n a, v ≠ .vModel n a) →
      falsy v = true →
      substitute_models_with_pks meta d = (none, d2) →
      dictLookup d2 f = none) ∧
    (∀ (meta : CompiledMeta) (d : Payload) (f : String),
      dictLookup d f = some .vNone →
      substituteStep meta d f = .ok d) := by
  constructor
  · intro meta d d2 f v hnd hf hv hnn hnm hfal hsub
    have hloop : substituteLoop meta (extract_related_names meta) d = (none, d2) := hsub
    obtain ⟨dmid, dnext, h1, h2, h3⟩ :=
      substituteLoop_final_lookup meta f (extract_related_names meta) d d2 hnd hf hloop
    have hstep : substituteStep meta dmid f = .ok (dictRemove dmid f) :=
      substituteStep_falsy_drop meta dmid f v (h1.trans hv) hnn hnm hfal
    have hdnext : dnext = dictRemove dmid f := by
      rw [hstep] at h2
      injection h2 with h4
      exact h4.symm
    rw [h3, hdnext]
    exact dictLookup_dictRemove_self f dmid
  · intro meta d f hv
    exact substituteStep_skip_vNone meta d f hv

/-- C5 witness: an empty-list value for the owning relation is dropped by
the substitution pass. -/
theorem C5_witness :
    dictLookup (substitute_models_with_pks saveMeta
      [("owner", Value.vList [])]).2 "owner" = none := by
  have h := C5_falsy_drop.1 saveMeta [("owner", Value.vList [])]
    (substitute_models_with_pks saveMeta [("owner", Value.vList [])]).2 "owner"
    (Value.vList []) (by decide) (by decide) rfl (by decide)
    (fun n a h => by cases h) rfl rfl
  exact h

/-- C3: for a payload value that is a materialized related instance, the
substitution stage replaces it by the instance's primary-key value and
raises `ModelPersistenceError` exactly when that value is falsy; and every
`ModelPersistenceError` escaping the whole save-preparation pipeline comes
from the substitution stage, from an owning relation field holding an
instance with a falsy primary key (the other stages never raise). -/
theorem C3_unsaved_relation_error :
    (∀ (meta : CompiledMeta) (d : Payload) (f : String) (tf : BaseField)
        (mname : String) (attrs : List (String × Value)),
      fieldsLookup meta.model_fields f = some tf →
      dictLookup d f = some (.vModel mname attrs) →
      ((substituteStep meta d f = .error (.persistenceError
          ("You cannot save " ++ mname ++ " model without pk set!")) ↔
        falsy (mappingGet attrs tf.to_pkname) = true) ∧
       (falsy (mappingGet attrs tf.to_pkname) = false →
        substituteStep meta d f =
          .ok (dictSet d f (mappingGet attrs tf.to_pkname))))) ∧
    (∀ (meta : CompiledMeta) (d d2 : Payload) (s : String),
      prepare_model_to_save meta d = (some (.persistenceError s), d2) →
      substitute_models_with_pks meta (_remove_pk_from_kwargs meta d) =
        (some (.persistenceError s), d2) ∧
      ∃ f, f ∈ extract_related_names meta ∧ ∃ mname attrs,
        dictLookup d2 f = some (.vModel mname attrs) ∧
        falsy (mappingGet attrs
          ((fieldsLookup meta.model_fields f).getD default).to_pkname) = true) := by
  constructor
  · intro meta d f tf mname attrs hlf hv
    have htf : (fieldsLookup meta.model_fields f).getD default = tf := by
      rw [hlf]
      rfl
    constructor
    · constructor
      · intro herr
        obtain ⟨mname2, attrs2, hv2, hfal2, _⟩ :=
          substituteStep_persistenceError meta d f _ herr
        rw [hv] at hv2
        injection hv2 with hv3
        injection hv3 with hm ha
        rw [htf] at hfal2
        rw [← ha] at hfal2
        exact hfal2
      · intro hfal
        exact substituteStep_model_falsy meta d f tf mname attrs htf hv hfal
    · intro hfal
      exact substituteStep_model_truthy meta d f tf mname attrs htf hv hfal
  · intro meta d d2 s hp
    have hp2 : (match substitute_models_with_pks meta
          (_remove_pk_from_kwargs meta d) with
        | (some e, dd) => ((some e : Option PyError), dd)
        | (none, dd) =>
          (none, translate_columns_to_aliases meta
            (populate_default_values meta dd))) =
        (some (.persistenceError s), d2) := hp
    rcases hs : substitute_models_with_pks meta (_remove_pk_from_kwargs meta d)
      with ⟨eo, dm⟩
    rw [hs] at hp2
    cases eo with
    | none =>
      have hp3 : ((none : Option PyError), translate_columns_to_aliases meta
          (populate_default_values meta dm)) =
          (some (.persistenceError s), d2) := hp2
      exact absurd (congrArg Prod.fst hp3) (by simp)
    | some e2 =>
      have hp3 : ((some e2 : Option PyError), dm) =
          (some (.persistenceError s), d2) := hp2
      have he : e2 = .persistenceError s :=
        Option.some.inj (congrArg Prod.fst hp3)
      have hd : dm = d2 := congrArg Prod.snd hp3
      subst he
      subst hd
      refine ⟨rfl, ?_⟩
      obtain ⟨f, hf, hsf⟩ := substituteLoop_error meta
        (extract_related_names meta) (_remove_pk_from_kwargs meta d) dm
        (.persistenceError s) hs
      obtain ⟨mname, attrs, hv, hfal, _⟩ :=
        substituteStep_persistenceError meta dm f s hsf
      exact ⟨f, hf, mname, attrs, hv, hfal⟩

/-- C3 witness: saving a payload that references an unsaved related
instance raises `ModelPersistenceError` naming the related model. -/
theorem C3_witness :
    substituteStep saveMeta [("owner", unsavedOwner)] "owner" =
      .error (.persistenceError "You cannot save user model without pk set!") :=
  ((C3_unsaved_relation_error.1 saveMeta [("owner", unsavedOwner)] "owner"
    ownerRelField "user" [("id", Value.vNone)] rfl rfl).1).mpr rfl

/-- C1 counterexample: with a payload carrying both an explicit `None`
primary key and an unsaved related instance, the pipeline raises
`ModelPersistenceError` but the caller's mapping has lost its `id` entry —
stage 1's in-place deletion is visible on failure, so the payload is not
left as it was. -/
theorem C1_counterexample :
    prepare_model_to_save saveMeta
        [("id", Value.vNone), ("owner", unsavedOwner)] =
      (some (.persistenceError "You cannot save user model without pk set!"),
        [("owner", unsavedOwner)]) ∧
    ([("owner", unsavedOwner)] : Payload) ≠
      [("id", Value.vNone), ("owner", unsavedOwner)] := by
  refine ⟨rfl, by decide⟩

/-- C1 (amended): on a `PersistenceError` the caller's payload reflects the
in-place mutations made before the raise (the stage-1 primary-key strip and
the substitutions of relation fields processed earlier); when no such
earlier mutation occurs — the primary-key strip does not fire and every
owning relation value in the payload is absent, `None`, or an unsaved
instance — the payload is published exactly unchanged, as in the spec's
single-relation scenario. -/
theorem C1_failure_payload_mutation :
    ∀ (meta : CompiledMeta) (d d2 : Payload) (e : PyError),
      prepare_model_to_save meta d = (some e, d2) →
      _remove_pk_from_kwargs meta d = d →
      (∀ f ∈ extract_related_names meta,
        dictLookup d f = none ∨ dictLookup d f = some .vNone ∨
        ∃ mname attrs, dictLookup d f = some (.vModel mname attrs) ∧
          falsy (mappingGet attrs
            ((fieldsLookup meta.model_fields f).getD default).to_pkname) = true) →
      d2 = d := by
  intro meta d d2 e hp hstage1 hall
  have hp2 : (match substitute_models_with_pks meta
        (_remove_pk_from_kwargs meta d) with
      | (some e2, dd) => ((some e2 : Option PyError), dd)
      | (none, dd) =>
        (none, translate_columns_to_aliases meta
          (populate_default_values meta dd))) = (some e, d2) := hp
  rcases hs : substitute_models_with_pks meta (_remove_pk_from_kwargs meta d)
    with ⟨eo, dm⟩
  rw [hs] at hp2
  rw [hstage1] at hs
  have hdm : dm = d := by
    have hs2 : substituteLoop meta (extract_related_names meta) d = (eo, dm) := hs
    have hunch : (substituteLoop meta (extract_related_names meta) d).2 = d :=
      substituteLoop_unchanged meta (extract_related_names meta) d hall
    rw [hs2] at hunch
    exact hunch
  cases eo with
  | none =>
    have hp3 : ((none : Option PyError), translate_columns_to_aliases meta
        (populate_default_values meta dm)) = (some e, d2) := hp2
    exact absurd (congrArg Prod.fst hp3) (by simp)
  | some e2 =>
    have hp3 : ((some e2 : Option PyError), dm) = (some e, d2) := hp2
    have hd : dm = d2 := congrArg Prod.snd hp3
    rw [← hd, hdm]

/-- C1 witness: the spec's scenario — a payload holding only an unsaved
related instance — raises and is published unchanged. -/
theorem C1_witness :
    prepare_model_to_save saveMeta [("owner", unsavedOwner)] =
      (some (.persistenceError "You cannot save user model without pk set!"),
        [("owner", unsavedOwner)]) ∧
    ([("owner", unsavedOwner)] : Payload) = [("owner", unsavedOwner)] :=
  ⟨rfl, C1_failure_payload_mutation saveMeta [("owner", unsavedOwner)]
    [("owner", unsavedOwner)]
    (.persistenceError "You cannot save user model without pk set!") rfl rfl
    (fun f hf => by
      have hf2 : f = "owner" := by
        have : extract_related_names saveMeta = ["owner"] := rfl
        rw [this] at hf
        simpa using hf
      subst hf2
      exact Or.inr (Or.inr ⟨"user", [("id", Value.vNone)], rfl, rfl⟩))⟩

/-- Reduction of the compile entry point on a fresh Meta (no cached columns,
no explicit tablename): it compiles the model fields and rejects a missing
primary key. -/
theorem populate_fresh (name : String) (fields : ModelFields) :
    populate_meta_tablename_columns_and_pk name { model_fields := fields } =
      (match sqlalchemy_columns_from_model_fields fields with
        | Except.error e => (.error e : Except DefErr ModelMeta)
        | Except.ok (pkname, columns, _) =>
          match pkname with
          | none => .error (.modelDefinitionError "Table has to have a primary key.")
          | some pkn =>
            .ok { tablename := some (name.toLower ++ "s")
                  model_fields := fields
                  pkname := some pkn
                  columns := some columns
                  constraints := []
                  table := none }) := by
  rcases h : sqlalchemy_columns_from_model_fields fields with e | pr
  · have hL : populate_meta_tablename_columns_and_pk name { model_fields := fields } =
        (match (match sqlalchemy_columns_from_model_fields fields with
            | Except.error e =>
                (Except.error e : Except DefErr (Option String × List Column))
            | Except.ok (pk, cols, _) => Except.ok (pk, cols)) with
          | Except.error e => (.error e : Except DefErr ModelMeta)
          | Except.ok (pkname, columns) =>
            match pkname with
            | none => .error (.modelDefinitionError "Table has to have a primary key.")
            | some pkn =>
              .ok { tablename := some (name.toLower ++ "s")
                    model_fields := fields
                    pkname := some pkn
                    columns := some columns
                    constraints := []
                    table := none }) := rfl
    rw [hL, h]
  · obtain ⟨pk, cols, w⟩ := pr
    have hL : populate_meta_tablename_columns_and_pk name { model_fields := fields } =
        (match (match sqlalchemy_columns_from_model_fields fields with
            | Except.error e =>
                (Except.error e : Except DefErr (Option String × List Column))
            | Except.ok (pk, cols, _) => Except.ok (pk, cols)) with
          | Except.error e => (.error e : Except DefErr ModelMeta)
          | Except.ok (pkname, columns) =>
            match pkname with
            | none => .error (.modelDefinitionError "Table has to have a primary key.")
            | some pkn =>
              .ok { tablename := some (name.toLower ++ "s")
                    model_fields := fields
                    pkname := some pkn
                    columns := some columns
                    constraints := []
                    table := none }) := rfl
    rw [hL, h]

/-- Reduction of `sqlalchemy_columns_from_model_fields` on a non-empty field
set: related-name validation first, then the primary-key/column pass, no
diagnostics. -/
theorem sqlalchemy_columns_cons (q : String × BaseField) (rest : ModelFields) :
    sqlalchemy_columns_from_model_fields (q :: rest) =
      (match validate_related_names_in_relations (q :: rest) with
        | Except.error e =>
            (Except.error e : Except DefErr (Option String × List Column × List String))
        | Except.ok () =>
          match columnsLoop (q :: rest) none with
          | Except.error e => Except.error e
          | Except.ok (pkname, columns) =>
            Except.ok (pkname, columns, ([] : List String))) := rfl

/-- C2 counterexample: the empty field-descriptor set has zero
primary-key-flagged fields, yet compilation succeeds (with the synthesized
`id` as primary key) instead of failing with a `DefinitionError`. -/
theorem C2_counterexample :
    (([] : ModelFields).filter (fun q => q.2.primary_key)) = [] ∧
    populate_meta_tablename_columns_and_pk "Through"
        { tablename := some "throughs", model_fields := [] } =
      .ok { tablename := some "throughs"
            model_fields := []
            pkname := some "id"
            columns := some
              [(Integer "id" true).get_column ((Integer "id" true).get_alias)]
            constraints := []
            table := none } :=
  ⟨rfl, rfl⟩

/-- C2 (amended): over a non-empty field-descriptor set, compilation returns
the unique persisted primary-key-flagged field's name when there is exactly
one and related-name validation passes; it fails with a `DefinitionError`
when there are zero primary-key-flagged fields, when there are two or more,
or when the unique one is pydantic-only. (The empty set instead synthesizes
an `id` primary key and succeeds.) -/
theorem C2_pk_validation :
    ∀ (name : String) (fields : ModelFields),
      (∀ (n : String) (fld : BaseField),
        relatedNamesOk fields = true →
        fields.filter (fun q => q.2.primary_key) = [(n, fld)] →
        fld.pydantic_only = false →
        ∃ m, populate_meta_tablename_columns_and_pk name
            { model_fields := fields } = .ok m ∧ m.pkname = some n) ∧
      (fields ≠ [] → fields.filter (fun q => q.2.primary_key) = [] →
        ∃ e, populate_meta_tablename_columns_and_pk name
          { model_fields := fields } = .error e) ∧
      (2 ≤ (fields.filter (fun q => q.2.primary_key)).length →
        ∃ e, populate_meta_tablename_columns_and_pk name
          { model_fields := fields } = .error e) ∧
      (∀ (n : String) (fld : BaseField),
        fields.filter (fun q => q.2.primary_key) = [(n, fld)] →
        fld.pydantic_only = true →
        ∃ e, populate_meta_tablename_columns_and_pk name
          { model_fields := fields } = .error e) := by
  intro name fields
  refine ⟨?_, ?_, ?_, ?_⟩
  · intro n fld hrel hfil hpyd
    cases fields with
    | nil => cases hfil
    | cons q rest =>
      have hval : validate_related_names_in_relations (q :: rest) = .ok () := by
        unfold validate_related_names_in_relations
        rw [if_pos hrel]
      obtain ⟨cols, hcl⟩ := columnsLoop_single_pk (q :: rest) n fld hfil hpyd
      have hsql : sqlalchemy_columns_from_model_fields (q :: rest) =
          .ok (some n, cols, []) := by
        rw [sqlalchemy_columns_cons q rest, hval, hcl]
      refine ⟨{ tablename := some (name.toLower ++ "s")
                model_fields := q :: rest
                pkname := some n
                columns := some cols
                constraints := []
                table := none }, ?_, rfl⟩
      rw [populate_fresh name (q :: rest), hsql]
  · intro hne hfil
    cases fields with
    | nil => exact absurd rfl hne
    | cons q rest =>
      rcases hrel : relatedNamesOk (q :: rest) with _ | _
      · have hval : validate_related_names_in_relations (q :: rest) = .error
            (.modelDefinitionError
              "Multiple fields leading to the same model need unique related names.") := by
          unfold validate_related_names_in_relations
          rw [if_neg (by simp [hrel])]
        refine ⟨.modelDefinitionError
          "Multiple fields leading to the same model need unique related names.", ?_⟩
        rw [populate_fresh name (q :: rest), sqlalchemy_columns_cons q rest, hval]
      · have hval : validate_related_names_in_relations (q :: rest) = .ok () := by
          unfold validate_related_names_in_relations
          rw [if_pos hrel]
        have hnopk : ∀ qq ∈ (q :: rest), qq.2.primary_key = false := by
          intro qq hq
          by_contra hc
          rw [Bool.not_eq_false] at hc
          have hmem : qq ∈ (q :: rest).filter (fun r => r.2.primary_key) :=
            List.mem_filter.mpr ⟨hq, hc⟩
          rw [hfil] at hmem
          exact absurd hmem (List.not_mem_nil qq)
        obtain ⟨cols, hcl⟩ := columnsLoop_no_pk (q :: rest) none hnopk
        refine ⟨.modelDefinitionError "Table has to have a primary key.", ?_⟩
        rw [populate_fresh name (q :: rest), sqlalchemy_columns_cons q rest,
          hval, hcl]
  · intro h2
    cases fields with
    | nil => simp at h2
    | cons q rest =>
      rcases hrel : relatedNamesOk (q :: rest) with _ | _
      · have hval : validate_related_names_in_relations (q :: rest) = .error
            (.modelDefinitionError
              "Multiple fields leading to the same model need unique related names.") := by
          unfold validate_related_names_in_relations
          rw [if_neg (by simp [hrel])]
        refine ⟨.modelDefinitionError
          "Multiple fields leading to the same model need unique related names.", ?_⟩
        rw [populate_fresh name (q :: rest), sqlalchemy_columns_cons q rest, hval]
      · have hval : validate_related_names_in_relations (q :: rest) = .ok () := by
          unfold validate_related_names_in_relations
          rw [if_pos hrel]
        obtain ⟨e, hcl⟩ := columnsLoop_multi_pk (q :: rest) none (Or.inr h2)
        refine ⟨e, ?_⟩
        rw [populate_fresh name (q :: rest), sqlalchemy_columns_cons q rest,
          hval, hcl]
  · intro n fld hfil hpyd
    cases fields with
    | nil => cases hfil
    | cons q rest =>
      rcases hrel : relatedNamesOk (q :: rest) with _ | _
      · have hval : validate_related_names_in_relations (q :: rest) = .error
            (.modelDefinitionError
              "Multiple fields leading to the same model need unique related names.") := by
          unfold validate_related_names_in_relations
          rw [if_neg (by simp [hrel])]
        refine ⟨.modelDefinitionError
          "Multiple fields leading to the same model need unique related names.", ?_⟩
        rw [populate_fresh name (q :: rest), sqlalchemy_columns_cons q rest, hval]
      · have hval : validate_related_names_in_relations (q :: rest) = .ok () := by
          unfold validate_related_names_in_relations
          rw [if_pos hrel]
        obtain ⟨e, hcl⟩ := columnsLoop_pydantic_pk (q :: rest) n fld hfil hpyd
        refine ⟨e, ?_⟩
        rw [populate_fresh name (q :: rest), sqlalchemy_columns_cons q rest,
          hval, hcl]

/-- C2 witness: a concrete one-field set with a persisted primary key
compiles to that field's name as primary key. -/
theorem C2_witness :
    ∃ m, populate_meta_tablename_columns_and_pk "User"
        { model_fields := [("id", Integer "id" true)] } = .ok m ∧
      m.pkname = some "id" :=
  (C2_pk_validation "User" [("id", Integer "id" true)]).1 "id"
    (Integer "id" true) rfl rfl rfl

end Ormar
